import Mathlib

/-!
Verification of the OpenClashTUI interactive session engine (src/main.rs).

The Rust source is shallowly embedded: every daemon interaction is passed in
as an explicit `Except String` result (the code uses `anyhow::Result`), the
`crossbeam` traffic channel is passed in as the list of samples queued since
the last drain, and the `ratatui::ListState` selection of each list is
modelled as an `Option Nat` (the value of `ListState.selected()`).
Rust `HashMap` iteration is modelled as the order of an association list;
`Vec::sort` (a stable sort) is modelled by a stable insertion sort, which
computes the same list for the total orders used here.
-/

-- ============================================================================
-- Data model (the serde types of src/main.rs)
-- ============================================================================

/-- `HistoryItem` from src/main.rs: one latency measurement, in ms. -/
structure HistoryItem where
  delay : Int
deriving DecidableEq, Repr

/-- `Proxy` from src/main.rs: one entry of the `/proxies` response. -/
structure Proxy where
  name : String
  proxy_type : String
  all : List String
  now : Option String
  history : List HistoryItem
deriving DecidableEq, Repr

/-- `Rule` from src/main.rs. -/
structure Rule where
  rule_type : String
  payload : String
  proxy : String
deriving DecidableEq, Repr

/-- `ConnectionMetadata` from src/main.rs. -/
structure ConnectionMetadata where
  network : String
  conn_type : String
  source_ip : String
  destination_ip : String
  source_port : String
  destination_port : String
  host : String
deriving DecidableEq, Repr

/-- `Connection` from src/main.rs. -/
structure Connection where
  id : String
  metadata : ConnectionMetadata
  upload : Nat
  download : Nat
  start : String
  chains : List String
  rule : String
deriving DecidableEq, Repr

/-- `ConnectionsResponse` from src/main.rs. -/
structure ConnectionsResponse where
  downloadTotal : Nat
  uploadTotal : Nat
  connections : List Connection
deriving DecidableEq, Repr

/-- `Traffic` from src/main.rs: one throughput sample. -/
structure Traffic where
  up : Nat
  down : Nat
deriving DecidableEq, Repr

/-- `ConfigResponse` from src/main.rs. -/
structure ConfigResponse where
  mode : String
  http_port : Nat
  socks_port : Nat
deriving DecidableEq, Repr

/-- The `proxies` field of `ProxiesResponse`: a `HashMap<String, Proxy>`
modelled as an association list in iteration order. -/
abbrev ProxyMap := List (String × Proxy)

/-- `HashMap::get` on the association-list model. -/
def lookupProxy (m : ProxyMap) (k : String) : Option Proxy :=
  (m.find? (fun p => p.1 == k)).map (fun p => p.2)

-- ============================================================================
-- Stable sort (model of Rust `Vec::sort` and `Vec::sort_by`)
-- ============================================================================

/-- Insert into a sorted list, keeping an element before every later-inserted
equal element (the stability discipline of the Rust stable sort). -/
def insertLe {α : Type} (le : α → α → Bool) (x : α) : List α → List α
  | [] => [x]
  | y :: ys => if le x y then x :: y :: ys else y :: insertLe le x ys

/-- Stable insertion sort; extensionally equal to the Rust stable `sort_by`
for a total preorder `le`. -/
def sortByLe {α : Type} (le : α → α → Bool) (l : List α) : List α :=
  l.foldr (insertLe le) []

theorem sortByLe_nil {α : Type} (le : α → α → Bool) : sortByLe le [] = [] := rfl

theorem sortByLe_cons {α : Type} (le : α → α → Bool) (x : α) (xs : List α) :
    sortByLe le (x :: xs) = insertLe le x (sortByLe le xs) := rfl

theorem length_insertLe {α : Type} (le : α → α → Bool) (x : α) (l : List α) :
    (insertLe le x l).length = l.length + 1 := by
  induction l with
  | nil => rfl
  | cons y ys ih =>
    simp only [insertLe]
    split
    · simp
    · simp [ih]

theorem length_sortByLe {α : Type} (le : α → α → Bool) (l : List α) :
    (sortByLe le l).length = l.length := by
  induction l with
  | nil => rfl
  | cons x xs ih => simp [sortByLe_cons, length_insertLe, ← ih, sortByLe]

theorem mem_insertLe {α : Type} {le : α → α → Bool} {x z : α} {l : List α} :
    z ∈ insertLe le x l ↔ z = x ∨ z ∈ l := by
  induction l with
  | nil => simp [insertLe]
  | cons y ys ih =>
    simp only [insertLe]
    split
    · simp [List.mem_cons]
    · simp only [List.mem_cons, ih]
      tauto

theorem mem_sortByLe {α : Type} {le : α → α → Bool} {z : α} {l : List α} :
    z ∈ sortByLe le l ↔ z ∈ l := by
  induction l with
  | nil => simp [sortByLe]
  | cons x xs ih =>
    simp only [sortByLe_cons, mem_insertLe, List.mem_cons, ih]

theorem pairwise_insertLe {α : Type} {le : α → α → Bool}
    (hto : ∀ a b, le a b = true ∨ le b a = true)
    (htr : ∀ a b c, le a b = true → le b c = true → le a c = true)
    (x : α) {l : List α} (h : List.Pairwise (fun a b => le a b = true) l) :
    List.Pairwise (fun a b => le a b = true) (insertLe le x l) := by
  induction l with
  | nil => simp [insertLe]
  | cons y ys ih =>
    simp only [insertLe]
    rcases List.pairwise_cons.mp h with ⟨hy, hys⟩
    split
    · rename_i hxy
      refine List.pairwise_cons.mpr ⟨?_, h⟩
      intro b hb
      rcases List.mem_cons.mp hb with rfl | hb
      · exact hxy
      · exact htr x y b hxy (hy b hb)
    · rename_i hxy
      refine List.pairwise_cons.mpr ⟨?_, ih hys⟩
      intro b hb
      rcases mem_insertLe.mp hb with rfl | hb
      · rcases hto b y with hby | hyb
        · exact absurd hby hxy
        · exact hyb
      · exact hy b hb

theorem pairwise_sortByLe {α : Type} {le : α → α → Bool}
    (hto : ∀ a b, le a b = true ∨ le b a = true)
    (htr : ∀ a b c, le a b = true → le b c = true → le a c = true)
    (l : List α) :
    List.Pairwise (fun a b => le a b = true) (sortByLe le l) := by
  induction l with
  | nil => simp [sortByLe]
  | cons x xs ih => exact pairwise_insertLe hto htr x ih

/-- Boolean form of the `String` order used by Rust `Vec::<String>::sort`
(byte-lexicographic order; on valid UTF-8 this equals the code-point order
that the Lean `String` linear order uses). -/
def strLe (a b : String) : Bool := decide (a ≤ b)

theorem strLe_total (a b : String) : strLe a b = true ∨ strLe b a = true := by
  rcases le_total a b with h | h
  · exact Or.inl (decide_eq_true h)
  · exact Or.inr (decide_eq_true h)

theorem strLe_trans (a b c : String) :
    strLe a b = true → strLe b c = true → strLe a c = true := by
  intro h1 h2
  exact decide_eq_true (le_trans (of_decide_eq_true h1) (of_decide_eq_true h2))

-- ============================================================================
-- ClashClient (the parts with logic of their own)
-- ============================================================================

/-- An HTTP response to the delay endpoint: its success flag and the result
of parsing the `delay` field of its body. -/
structure HttpResponse where
  success : Bool
  body : Except String Int
deriving Repr

/-- `ClashClient::test_delay` from src/main.rs, as a function of the result
of sending the request: a transport failure is an error, a non-success
status is reported as delay `-1`, otherwise the parsed `delay` is returned. -/
def test_delay (send : Except String HttpResponse) : Except String Int :=
  match send with
  | .error e => .error ("Failed to test delay: " ++ e)
  | .ok resp =>
    if resp.success then resp.body
    else .ok (-1)

-- ============================================================================
-- App state (the `App` struct of src/main.rs)
-- ============================================================================

/-- `Tab` from src/main.rs. -/
inductive Tab
  | Proxies
  | Rules
  | Conns
deriving DecidableEq, Repr

/-- `App` from src/main.rs. Each `ratatui::ListState` is modelled by the
`Option Nat` returned by its `selected()`; the client handle and the channel
receiver are not state and are passed to the operations explicitly. -/
structure App where
  current_tab : Tab
  groups : List String
  group_state : Option Nat
  proxies : List (String × Int)
  proxy_state : Option Nat
  current_group : Option Proxy
  rules : List Rule
  rule_state : Option Nat
  conns : List Connection
  conn_state : Option Nat
  status : String
  traffic : Traffic
  mode : String
  show_help : Bool
  focus : Nat
deriving DecidableEq, Repr

/-- The results the daemon returns for the calls one `refresh_data` makes,
plus the samples queued on the traffic channel since the last drain. -/
structure Daemon where
  config : Except String ConfigResponse
  proxies : Except String ProxyMap
  rules : Except String (List Rule)
  conns : Except String ConnectionsResponse
  trafficQueue : List Traffic
deriving Repr

-- ============================================================================
-- Formatting helpers
-- ============================================================================

/-- `str::is_char_boundary` on a list of UTF-8 bytes: position 0 and the end
are boundaries, and an inner position is one exactly when its byte is not a
continuation byte (`0x80..0xBF`). -/
def isCharBoundary (s : List Nat) (i : Nat) : Bool :=
  if i == 0 then true
  else if i == s.length then true
  else
    match s.get? i with
    | some b => decide (b < 128) || decide (192 ≤ b)
    | none => false

/-- The group-kind filter of `App::refresh_proxies` and of the `Groups`
subcommand in src/main.rs. -/
def is_group_kind (p : Proxy) : Bool :=
  p.proxy_type == "Selector" || p.proxy_type == "URLTest" ||
    p.proxy_type == "Fallback"

/-- Two-decimal rendering of `n / d` by integer arithmetic. The Rust source
formats an `f64` quotient with half-even rounding; no claim depends on the
rounding of these digits, so half-up integer rounding stands in for it. -/
def format_quot2 (n d : Nat) : String :=
  let c := (n * 100 + d / 2) / d
  let r := c % 100
  toString (c / 100) ++ "." ++ (if r < 10 then "0" else "") ++ toString r

/-- `format_bytes` from src/main.rs. -/
def format_bytes (bytes : Nat) : String :=
  let kb := 1024
  let mb := 1024 * kb
  let gb := 1024 * mb
  if bytes ≥ gb then format_quot2 bytes gb ++ " GB"
  else if bytes ≥ mb then format_quot2 bytes mb ++ " MB"
  else if bytes ≥ kb then format_quot2 bytes kb ++ " KB"
  else toString bytes ++ " B"

/-- `truncate_str` from src/main.rs, on the UTF-8 bytes of the string.
`&s[..max_len - 1]` panics when that position is not a character boundary;
the panic is modelled as `none`. The appended ellipsis is the three UTF-8
bytes of the ellipsis character. -/
def truncate_str (s : List Nat) (max_len : Nat) : Option (List Nat) :=
  if s.length > max_len then
    if isCharBoundary s (max_len - 1) then
      some (s.take (max_len - 1) ++ [226, 128, 166])
    else none
  else some s

-- ============================================================================
-- App operations
-- ============================================================================

/-- The member list that `App::update_proxies_for_group` derives for a group:
each member name paired with the delay of the last entry of that member's
own history, `-1` when absent. -/
def derive_members (m : ProxyMap) (group : Proxy) : List (String × Int) :=
  group.all.map (fun name =>
    (name,
      (((lookupProxy m name).bind (fun p => p.history.getLast?)).map
        (fun h => h.delay)).getD (-1)))

/-- `App::update_proxies_for_group` from src/main.rs. The source assigns the
derived list to `self.proxies` and then tests `!self.proxies.is_empty() &&
self.proxy_state.selected().is_none()`; the branch condition here reads the
same two values. -/
def update_proxies_for_group (a : App) (m : ProxyMap) : App :=
  match a.group_state with
  | none => a
  | some idx =>
    match a.groups.get? idx with
    | none => a
    | some group_name =>
      match lookupProxy m group_name with
      | none => a
      | some group =>
        if !(derive_members m group).isEmpty && a.proxy_state.isNone then
          { a with current_group := some group,
                   proxies := derive_members m group,
                   proxy_state := some 0 }
        else
          { a with current_group := some group,
                   proxies := derive_members m group }

/-- The filtered and sorted group-name list `App::refresh_proxies` builds
from a `/proxies` response. -/
def group_names (m : ProxyMap) : List String :=
  sortByLe strLe ((m.filter (fun p => is_group_kind p.2)).map (fun p => p.1))

/-- `App::refresh_proxies` from src/main.rs, as a function of the result of
`get_proxies`: store the filtered, sorted group names, initialize an unset
group cursor on a non-empty list, re-derive the member list, set the status. -/
def refresh_proxies (a : App) (resp : Except String ProxyMap) : App :=
  match resp with
  | .error e => { a with status := "Error: " ++ e }
  | .ok m =>
    { update_proxies_for_group
        (if !(group_names m).isEmpty && a.group_state.isNone then
          { a with groups := group_names m, group_state := some 0 }
        else
          { a with groups := group_names m }) m
      with status := "Loaded " ++ toString (group_names m).length ++ " groups" }

/-- `App::refresh_rules` from src/main.rs. -/
def refresh_rules (a : App) (resp : Except String (List Rule)) : App :=
  match resp with
  | .error e => { a with status := "Error: " ++ e }
  | .ok rs =>
    { (if !rs.isEmpty && a.rule_state.isNone then
        { a with rules := rs, rule_state := some 0 }
      else
        { a with rules := rs })
      with status := "Loaded " ++ toString rs.length ++ " rules" }

/-- The descending-by-`start` order of `App::refresh_conns`: the comparator
`b.start.cmp(&a.start)` lets `x` precede `y` when `y.start ≤ x.start`. -/
def connLe (x y : Connection) : Bool := decide (y.start ≤ x.start)

/-- `App::refresh_conns` from src/main.rs. -/
def refresh_conns (a : App) (resp : Except String ConnectionsResponse) : App :=
  match resp with
  | .error e => { a with status := "Error: " ++ e }
  | .ok r =>
    { (if !(sortByLe connLe r.connections).isEmpty && a.conn_state.isNone then
        { a with conns := sortByLe connLe r.connections,
                 conn_state := some 0 }
      else
        { a with conns := sortByLe connLe r.connections })
      with status :=
        "Loaded " ++ toString (sortByLe connLe r.connections).length ++
        " connections. Up: " ++ format_bytes r.uploadTotal ++
        ", Down: " ++ format_bytes r.downloadTotal }

/-- The `while let Ok(traffic) = self.traffic_rx.try_recv()` drain loop of
`App::refresh_data`, over the queued samples in arrival order. -/
def drainTraffic (a : App) : List Traffic → App
  | [] => a
  | t :: rest => drainTraffic { a with traffic := t } rest

/-- The `if let Ok(config) = self.client.get_config()` step of
`App::refresh_data`. -/
def apply_config (a : App) (c : Except String ConfigResponse) : App :=
  match c with
  | .ok config => { a with mode := config.mode }
  | .error _ => a

/-- `App::refresh_data` from src/main.rs: best-effort mode fetch, traffic
drain, then the refresh of the active tab. -/
def refresh_data (a : App) (d : Daemon) : App :=
  match a.current_tab with
  | Tab.Proxies =>
    refresh_proxies (drainTraffic (apply_config a d.config) d.trafficQueue)
      d.proxies
  | Tab.Rules =>
    refresh_rules (drainTraffic (apply_config a d.config) d.trafficQueue)
      d.rules
  | Tab.Conns =>
    refresh_conns (drainTraffic (apply_config a d.config) d.trafficQueue)
      d.conns

/-- `App::select_proxy` from src/main.rs, as a function of the result of the
PUT request and of the `get_proxies` call its follow-up refresh makes. -/
def select_proxy (a : App) (result : Except String Unit)
    (fetch : Except String ProxyMap) : App :=
  match a.current_group, a.proxy_state with
  | some group, some proxy_idx =>
    match a.proxies.get? proxy_idx with
    | some pr =>
      match result with
      | .ok _ =>
        refresh_proxies
          { a with status := "Selected: " ++ group.name ++ " -> " ++ pr.1 }
          fetch
      | .error e => { a with status := "Error selecting proxy: " ++ e }
    | none => a
  | _, _ => a

/-- Whether `App::select_proxy` reaches its `client.select_proxy` call: both
guards of the source must pass. -/
def select_issues_request (a : App) : Bool :=
  match a.current_group, a.proxy_state with
  | some _, some proxy_idx => (a.proxies.get? proxy_idx).isSome
  | _, _ => false

/-- `App::test_selected_delay` from src/main.rs, as a function of the
`test_delay` result. The transient `Testing <name>...` status the source
shows while blocked on the probe is overwritten in every branch before the
function returns, so only the final status appears here. -/
def test_selected_delay (a : App) (result : Except String Int) : App :=
  match a.proxy_state with
  | none => a
  | some proxy_idx =>
    match a.proxies.get? proxy_idx with
    | none => a
    | some pr =>
      match result with
      | .ok delay =>
        if delay > 0 then
          { a with status := pr.1 ++ ": " ++ toString delay ++ "ms",
                   proxies := a.proxies.set proxy_idx (pr.1, delay) }
        else
          { a with status := pr.1 ++ ": timeout" }
      | .error e => { a with status := "Error testing delay: " ++ e }

/-- The mode successor computed by `App::toggle_mode` in src/main.rs. -/
def next_mode (mode : String) : String :=
  if mode == "Rule" then "Global"
  else if mode == "Global" then "Direct"
  else "Rule"

/-- `App::toggle_mode` from src/main.rs, as a function of the result of the
PATCH request. -/
def toggle_mode (a : App) (result : Except String Unit) : App :=
  match result with
  | .ok _ => { a with mode := next_mode a.mode,
                      status := "Switched to " ++ next_mode a.mode ++ " mode" }
  | .error e => { a with status := "Error switching mode: " ++ e }

/-- `App::next_tab` from src/main.rs. -/
def next_tab (a : App) (d : Daemon) : App :=
  refresh_data
    { a with current_tab :=
        match a.current_tab with
        | Tab.Proxies => Tab.Rules
        | Tab.Rules => Tab.Conns
        | Tab.Conns => Tab.Proxies } d

/-- `App::prev_tab` from src/main.rs. -/
def prev_tab (a : App) (d : Daemon) : App :=
  refresh_data
    { a with current_tab :=
        match a.current_tab with
        | Tab.Proxies => Tab.Conns
        | Tab.Conns => Tab.Rules
        | Tab.Rules => Tab.Proxies } d

/-- `App::move_up` from src/main.rs, as a function of the `get_proxies`
result of the member re-derivation a Groups move performs. -/
def move_up (a : App) (fetch : Except String ProxyMap) : App :=
  match a.current_tab with
  | Tab.Proxies =>
    if a.focus == 0 then
      if a.group_state.getD 0 > 0 then
        match fetch with
        | .ok m =>
          update_proxies_for_group
            { a with group_state := some (a.group_state.getD 0 - 1),
                     proxy_state := some 0 } m
        | .error _ =>
          { a with group_state := some (a.group_state.getD 0 - 1),
                   proxy_state := some 0 }
      else a
    else
      if a.proxy_state.getD 0 > 0 then
        { a with proxy_state := some (a.proxy_state.getD 0 - 1) }
      else a
  | Tab.Rules =>
    if a.rule_state.getD 0 > 0 then
      { a with rule_state := some (a.rule_state.getD 0 - 1) }
    else a
  | Tab.Conns =>
    if a.conn_state.getD 0 > 0 then
      { a with conn_state := some (a.conn_state.getD 0 - 1) }
    else a

/-- `App::move_down` from src/main.rs; `len.saturating_sub(1)` is the
truncated subtraction of `Nat`. -/
def move_down (a : App) (fetch : Except String ProxyMap) : App :=
  match a.current_tab with
  | Tab.Proxies =>
    if a.focus == 0 then
      if a.group_state.getD 0 < a.groups.length - 1 then
        match fetch with
        | .ok m =>
          update_proxies_for_group
            { a with group_state := some (a.group_state.getD 0 + 1),
                     proxy_state := some 0 } m
        | .error _ =>
          { a with group_state := some (a.group_state.getD 0 + 1),
                   proxy_state := some 0 }
      else a
    else
      if a.proxy_state.getD 0 < a.proxies.length - 1 then
        { a with proxy_state := some (a.proxy_state.getD 0 + 1) }
      else a
  | Tab.Rules =>
    if a.rule_state.getD 0 < a.rules.length - 1 then
      { a with rule_state := some (a.rule_state.getD 0 + 1) }
    else a
  | Tab.Conns =>
    if a.conn_state.getD 0 < a.conns.length - 1 then
      { a with conn_state := some (a.conn_state.getD 0 + 1) }
    else a

/-- `App::toggle_focus` from src/main.rs. -/
def toggle_focus (a : App) : App :=
  if a.current_tab = Tab.Proxies then { a with focus := 1 - a.focus } else a

/-- The `Commands::Groups` branch of `main` in src/main.rs: the rows the
one-shot CLI group listing prints, in map iteration order. -/
def cli_groups (m : ProxyMap) : List (String × Proxy) :=
  m.filter (fun p => is_group_kind p.2)

-- ============================================================================
-- Helper lemmas about the operations
-- ============================================================================

theorem upfg_groups (a : App) (m : ProxyMap) :
    (update_proxies_for_group a m).groups = a.groups := by
  unfold update_proxies_for_group
  repeat' split
  all_goals rfl

theorem upfg_group_state (a : App) (m : ProxyMap) :
    (update_proxies_for_group a m).group_state = a.group_state := by
  unfold update_proxies_for_group
  repeat' split
  all_goals rfl

theorem upfg_rules (a : App) (m : ProxyMap) :
    (update_proxies_for_group a m).rules = a.rules := by
  unfold update_proxies_for_group
  repeat' split
  all_goals rfl

theorem upfg_rule_state (a : App) (m : ProxyMap) :
    (update_proxies_for_group a m).rule_state = a.rule_state := by
  unfold update_proxies_for_group
  repeat' split
  all_goals rfl

theorem upfg_conns (a : App) (m : ProxyMap) :
    (update_proxies_for_group a m).conns = a.conns := by
  unfold update_proxies_for_group
  repeat' split
  all_goals rfl

theorem upfg_conn_state (a : App) (m : ProxyMap) :
    (update_proxies_for_group a m).conn_state = a.conn_state := by
  unfold update_proxies_for_group
  repeat' split
  all_goals rfl

theorem upfg_mode (a : App) (m : ProxyMap) :
    (update_proxies_for_group a m).mode = a.mode := by
  unfold update_proxies_for_group
  repeat' split
  all_goals rfl

theorem upfg_traffic (a : App) (m : ProxyMap) :
    (update_proxies_for_group a m).traffic = a.traffic := by
  unfold update_proxies_for_group
  repeat' split
  all_goals rfl

theorem upfg_current_tab (a : App) (m : ProxyMap) :
    (update_proxies_for_group a m).current_tab = a.current_tab := by
  unfold update_proxies_for_group
  repeat' split
  all_goals rfl

theorem upfg_proxy_state_of_isSome (a : App) (m : ProxyMap)
    (h : a.proxy_state.isSome = true) :
    (update_proxies_for_group a m).proxy_state = a.proxy_state := by
  unfold update_proxies_for_group
  repeat' split
  all_goals try rfl
  rename_i hcond
  rw [Bool.and_eq_true, Option.isNone_iff_eq_none] at hcond
  rw [hcond.2] at h
  simp at h

theorem drainTraffic_traffic (q : List Traffic) (a : App) :
    (drainTraffic a q).traffic = q.getLast?.getD a.traffic := by
  induction q generalizing a with
  | nil => rfl
  | cons t rest ih =>
    show (drainTraffic { a with traffic := t } rest).traffic = _
    rw [ih]
    cases rest with
    | nil => rfl
    | cons r rs =>
      rw [List.getLast?_cons_cons]
      rcases Option.isSome_iff_exists.mp
        ((List.getLast?_isSome (l := r :: rs)).mpr (by simp)) with ⟨x, hx⟩
      simp [hx]

theorem drainTraffic_mode (q : List Traffic) (a : App) :
    (drainTraffic a q).mode = a.mode := by
  induction q generalizing a with
  | nil => rfl
  | cons t rest ih => exact ih { a with traffic := t }

theorem apply_config_traffic (a : App) (c : Except String ConfigResponse) :
    (apply_config a c).traffic = a.traffic := by
  unfold apply_config
  split
  all_goals rfl

theorem refresh_proxies_traffic (a : App) (r : Except String ProxyMap) :
    (refresh_proxies a r).traffic = a.traffic := by
  unfold refresh_proxies
  cases r with
  | error e => rfl
  | ok m =>
    show (update_proxies_for_group _ m).traffic = a.traffic
    rw [upfg_traffic]
    split
    all_goals rfl

theorem refresh_rules_traffic (a : App) (r : Except String (List Rule)) :
    (refresh_rules a r).traffic = a.traffic := by
  unfold refresh_rules
  cases r with
  | error e => rfl
  | ok rs =>
    show (if _ then _ else _ : App).traffic = a.traffic
    split
    all_goals rfl

theorem refresh_conns_traffic (a : App) (r : Except String ConnectionsResponse) :
    (refresh_conns a r).traffic = a.traffic := by
  unfold refresh_conns
  cases r with
  | error e => rfl
  | ok rr =>
    show (if _ then _ else _ : App).traffic = a.traffic
    split
    all_goals rfl

theorem refresh_proxies_mode (a : App) (r : Except String ProxyMap) :
    (refresh_proxies a r).mode = a.mode := by
  unfold refresh_proxies
  cases r with
  | error e => rfl
  | ok m =>
    show (update_proxies_for_group _ m).mode = a.mode
    rw [upfg_mode]
    split
    all_goals rfl

theorem refresh_rules_mode (a : App) (r : Except String (List Rule)) :
    (refresh_rules a r).mode = a.mode := by
  unfold refresh_rules
  cases r with
  | error e => rfl
  | ok rs =>
    show (if _ then _ else _ : App).mode = a.mode
    split
    all_goals rfl

theorem refresh_conns_mode (a : App) (r : Except String ConnectionsResponse) :
    (refresh_conns a r).mode = a.mode := by
  unfold refresh_conns
  cases r with
  | error e => rfl
  | ok rr =>
    show (if _ then _ else _ : App).mode = a.mode
    split
    all_goals rfl

theorem refresh_proxies_groups_ok (a : App) (m : ProxyMap) :
    (refresh_proxies a (.ok m)).groups = group_names m := by
  unfold refresh_proxies
  show (update_proxies_for_group _ m).groups = group_names m
  rw [upfg_groups]
  split
  all_goals rfl

-- ============================================================================
-- The selection-cursor invariant
-- ============================================================================

/-- A selection cursor is unset, or a valid index into a list of the given
length (which forces it to be unset on an empty list). -/
def selValid (sel : Option Nat) (len : Nat) : Bool :=
  match sel with
  | none => true
  | some i => decide (i < len)

/-- All four selection cursors of the session are unset or in range. -/
def cursorsValid (a : App) : Bool :=
  selValid a.group_state a.groups.length &&
  selValid a.proxy_state a.proxies.length &&
  selValid a.rule_state a.rules.length &&
  selValid a.conn_state a.conns.length

theorem selValid_none (len : Nat) : selValid none len = true := rfl

theorem selValid_some {i len : Nat} : selValid (some i) len = true ↔ i < len := by
  simp [selValid]

theorem selValid_step_down {s : Option Nat} {len : Nat}
    (h : selValid s len = true) (hlt : s.getD 0 < len - 1) :
    selValid (some (s.getD 0 + 1)) len = true := by
  cases s with
  | none => simp [selValid] at *; omega
  | some j => simp [selValid] at *; omega

theorem selValid_step_up {s : Option Nat} {len : Nat}
    (h : selValid s len = true) (hgt : 0 < s.getD 0) :
    selValid (some (s.getD 0 - 1)) len = true := by
  cases s with
  | none => simp at hgt
  | some j => simp [selValid] at *; omega

theorem upfg_cursorsValid (a : App) (m : ProxyMap)
    (h : cursorsValid a = true) (hp : a.proxy_state = none) :
    cursorsValid (update_proxies_for_group a m) = true := by
  unfold update_proxies_for_group
  split
  · exact h
  · split
    · exact h
    · split
      · exact h
      · rename_i g hlook
        simp only [cursorsValid, Bool.and_eq_true] at h
        obtain ⟨⟨⟨hg, hpv⟩, hr⟩, hc⟩ := h
        split
        · rename_i hcond
          rw [Bool.and_eq_true] at hcond
          have hne : derive_members m g ≠ [] := by
            intro hnil
            rw [hnil] at hcond
            simp at hcond
          simp only [cursorsValid, Bool.and_eq_true]
          refine ⟨⟨⟨hg, ?_⟩, hr⟩, hc⟩
          rw [selValid_some]
          exact List.length_pos.mpr hne
        · simp only [cursorsValid, Bool.and_eq_true]
          refine ⟨⟨⟨hg, ?_⟩, hr⟩, hc⟩
          show selValid a.proxy_state _ = true
          rw [hp]
          rfl

-- ============================================================================
-- Concrete session states and responses used by witnesses and counterexamples
-- ============================================================================

/-- A session state with every list empty and every cursor unset. -/
def baseApp : App :=
  { current_tab := Tab.Proxies, groups := [], group_state := none,
    proxies := [], proxy_state := none, current_group := none,
    rules := [], rule_state := none, conns := [], conn_state := none,
    status := "", traffic := { up := 0, down := 0 }, mode := "Rule",
    show_help := false, focus := 0 }

/-- A connection that differs from others only in its start timestamp. -/
def exConn (s : String) : Connection :=
  { id := "0",
    metadata := { network := "tcp", conn_type := "HTTP",
                  source_ip := "10.0.0.2", destination_ip := "1.2.3.4",
                  source_port := "40000", destination_port := "443",
                  host := "example.com" },
    upload := 10, download := 20, start := s, chains := ["ProxyA"],
    rule := "Match" }

-- ============================================================================
-- C1: the mode cycle
-- ============================================================================

/-- C1, counterexample: the claim says every mode outside the cycle steps to
`Global`; the catch-all arm of `toggle_mode` computes `Rule` for the mode
string `Unknown` (the initial placeholder mode of the session), not
`Global`. -/
theorem toggle_mode_unknown_not_global_cex :
    next_mode "Unknown" = "Rule" ∧ "Rule" ≠ "Global" := by
  constructor
  · rfl
  · decide

/-- C1, amended: `toggle_mode` cycles `Rule` to `Global` to `Direct` back to
`Rule`, and every mode string other than `Rule` and `Global` (so `Direct`
and every unknown mode alike) steps to `Rule`; an applied mode change sets
the stored mode to this successor. -/
theorem toggle_mode_cycle :
    next_mode "Rule" = "Global" ∧ next_mode "Global" = "Direct" ∧
    next_mode "Direct" = "Rule" ∧
    (∀ mode : String, mode ≠ "Rule" → mode ≠ "Global" → next_mode mode = "Rule") ∧
    (∀ a : App, (toggle_mode a (.ok ())).mode = next_mode a.mode) := by
  refine ⟨rfl, rfl, rfl, ?_, fun a => rfl⟩
  intro mode h1 h2
  unfold next_mode
  rw [if_neg (by simp [h1]), if_neg (by simp [h2])]

/-- C1, witness: the amended successor map applied at the concrete unknown
mode string `Script`. -/
theorem toggle_mode_cycle_witness :
    ("Script" : String) ≠ "Rule" ∧ next_mode "Script" = "Rule" :=
  ⟨by decide, toggle_mode_cycle.2.2.2.1 "Script" (by decide) (by decide)⟩

-- ============================================================================
-- C9: totality of truncate_str
-- ============================================================================

/-- C9, counterexample: on the six UTF-8 bytes of three two-byte characters
with `max_len = 2`, the byte slice `&s[..1]` of `truncate_str` falls inside
a character and the function panics instead of returning. -/
theorem truncate_str_panics_on_multibyte_cex :
    1 ≤ 2 ∧ truncate_str [206, 177, 206, 177, 206, 177] 2 = none := by
  constructor
  · decide
  · rfl

/-- C9, amended: for `max_len ≥ 1`, `truncate_str` returns normally exactly
when the string fits (it is returned unchanged) or byte position
`max_len - 1` is a character boundary (the first `max_len - 1` bytes plus an
ellipsis are returned); when the string is longer than `max_len` and that
position splits a multi-byte character, it fails. -/
theorem truncate_str_totality_on_boundary :
    ∀ (s : List Nat) (max_len : Nat), 1 ≤ max_len →
    (truncate_str s max_len).isSome =
      (decide (s.length ≤ max_len) || isCharBoundary s (max_len - 1)) ∧
    (s.length ≤ max_len → truncate_str s max_len = some s) ∧
    (s.length > max_len → isCharBoundary s (max_len - 1) = true →
      truncate_str s max_len =
        some (s.take (max_len - 1) ++ [226, 128, 166])) := by
  intro s max_len _
  unfold truncate_str
  refine ⟨?_, ?_, ?_⟩
  · split
    · rename_i hgt
      rw [decide_eq_false (by omega)]
      split
      · rename_i hb
        rw [hb]
        rfl
      · rename_i hb
        rw [Bool.not_eq_true] at hb
        rw [hb]
        rfl
    · rename_i hle
      rw [decide_eq_true (by omega)]
      rfl
  · intro hle
    rw [if_neg (by omega)]
  · intro hgt hb
    rw [if_pos hgt, if_pos hb]

/-- C9, witness: the amended totality at the ASCII input `abc` with
`max_len = 2`: one byte is kept and the ellipsis appended. -/
theorem truncate_str_totality_on_boundary_witness :
    truncate_str [97, 98, 99] 2 = some [97, 226, 128, 166] :=
  (truncate_str_totality_on_boundary [97, 98, 99] 2 (by decide)).2.2
    (by decide) (by decide)

-- ============================================================================
-- C10: the Select guards
-- ============================================================================

/-- C10: when no group snapshot is held, or the Members cursor is unset or
out of range, `select_proxy` issues no request and returns the session state
unchanged, whatever the daemon would have answered. -/
theorem select_proxy_guard_noop :
    ∀ (a : App) (r : Except String Unit) (f : Except String ProxyMap),
    (a.current_group = none ∨ a.proxy_state = none ∨
      (∃ i, a.proxy_state = some i ∧ a.proxies.get? i = none)) →
    select_issues_request a = false ∧ select_proxy a r f = a := by
  intro a r f h
  rcases h with h | h | ⟨i, hi, hget⟩
  · exact ⟨by simp only [select_issues_request, h],
           by simp only [select_proxy, h]⟩
  · cases hcg : a.current_group with
    | none =>
      exact ⟨by simp only [select_issues_request, hcg],
             by simp only [select_proxy, hcg]⟩
    | some g =>
      exact ⟨by simp only [select_issues_request, hcg, h],
             by simp only [select_proxy, hcg, h]⟩
  · cases hcg : a.current_group with
    | none =>
      exact ⟨by simp only [select_issues_request, hcg],
             by simp only [select_proxy, hcg]⟩
    | some g =>
      exact ⟨by simp only [select_issues_request, hcg, hi, hget, Option.isSome_none],
             by simp only [select_proxy, hcg, hi, hget]⟩

/-- C10, witness: in the fresh session state (no group snapshot held),
Select does not contact the daemon and changes nothing. -/
theorem select_proxy_guard_noop_witness :
    select_issues_request baseApp = false ∧
    select_proxy baseApp (.ok ()) (.error "unreachable") = baseApp :=
  select_proxy_guard_noop baseApp (.ok ()) (.error "unreachable") (Or.inl rfl)

-- ============================================================================
-- C8: the traffic drain
-- ============================================================================

/-- C8: one refresh drains the traffic channel completely; afterwards the
displayed throughput is the last queued sample, and it is unchanged when the
queue was empty. -/
theorem refresh_traffic_drain_latest :
    ∀ (a : App) (d : Daemon),
    (refresh_data a d).traffic = d.trafficQueue.getLast?.getD a.traffic := by
  intro a d
  unfold refresh_data
  split
  · rw [refresh_proxies_traffic, drainTraffic_traffic, apply_config_traffic]
  · rw [refresh_rules_traffic, drainTraffic_traffic, apply_config_traffic]
  · rw [refresh_conns_traffic, drainTraffic_traffic, apply_config_traffic]

-- ============================================================================
-- C7: refresh failure atomicity
-- ============================================================================

/-- C7: every tab refresh on a fetch failure only sets the status line to an
error description, leaving lists, cursors, mode and traffic untouched; a
failing mode fetch leaves the known mode unchanged while the traffic drain
and the active tab refresh still run. -/
theorem refresh_failure_atomicity :
    (∀ (a : App) (e : String),
      refresh_proxies a (.error e) = { a with status := "Error: " ++ e }) ∧
    (∀ (a : App) (e : String),
      refresh_rules a (.error e) = { a with status := "Error: " ++ e }) ∧
    (∀ (a : App) (e : String),
      refresh_conns a (.error e) = { a with status := "Error: " ++ e }) ∧
    (∀ (a : App) (d : Daemon) (e : String), d.config = .error e →
      (refresh_data a d).mode = a.mode) ∧
    (∀ (a : App) (d : Daemon) (e : String), d.config = .error e →
      refresh_data a d =
        match a.current_tab with
        | Tab.Proxies =>
          refresh_proxies (drainTraffic a d.trafficQueue) d.proxies
        | Tab.Rules => refresh_rules (drainTraffic a d.trafficQueue) d.rules
        | Tab.Conns => refresh_conns (drainTraffic a d.trafficQueue) d.conns) := by
  refine ⟨fun a e => rfl, fun a e => rfl, fun a e => rfl, ?_, ?_⟩
  · intro a d e h
    unfold refresh_data
    have hc : apply_config a d.config = a := by
      unfold apply_config
      rw [h]
    split
    · rw [refresh_proxies_mode, drainTraffic_mode, hc]
    · rw [refresh_rules_mode, drainTraffic_mode, hc]
    · rw [refresh_conns_mode, drainTraffic_mode, hc]
  · intro a d e h
    unfold refresh_data
    have hc : apply_config a d.config = a := by
      unfold apply_config
      rw [h]
    rw [hc]

/-- A daemon whose every endpoint is down. -/
def downDaemon : Daemon :=
  { config := .error "connection refused",
    proxies := .error "connection refused",
    rules := .error "connection refused",
    conns := .error "connection refused",
    trafficQueue := [] }

/-- C7, witness: against a fully unreachable daemon, a refresh of the fresh
session keeps the known mode. -/
theorem refresh_failure_atomicity_witness :
    (refresh_data baseApp downDaemon).mode = baseApp.mode :=
  refresh_failure_atomicity.2.2.2.1 baseApp downDaemon "connection refused" rfl

-- ============================================================================
-- C4: latency-probe result handling
-- ============================================================================

/-- A session on the Members list whose single member already holds a
measured latency of 100 ms. -/
def exAppDelay : App :=
  { baseApp with proxies := [("p", (100 : Int))], proxy_state := some 0,
                 focus := 1 }

/-- C4, counterexample: the claim says a non-positive probe result leaves
the displayed latency as the negative unknown sentinel; on a member whose
stored latency is the positive 100 ms, a probe result of `-1` reports the
timeout but keeps the previous positive latency, not the sentinel. -/
theorem delay_timeout_keeps_previous_latency_cex :
    (test_selected_delay exAppDelay (.ok (-1))).proxies = [("p", (100 : Int))] ∧
    (0 : Int) < 100 ∧
    (test_selected_delay exAppDelay (.ok (-1))).status = "p: timeout" := by
  refine ⟨rfl, by decide, rfl⟩

/-- C4, amended: with a member under the Members cursor, a non-positive
probe result sets the status to the timeout line for that member and changes
nothing else (the stored latency stays whatever it was, so it remains the
negative sentinel only when it already was); a failed probe call sets the
error status and changes nothing else; a positive result rewrites only that
member's latency entry; and a non-success HTTP response from the delay
endpoint is turned into the result `-1` by the client. -/
theorem test_delay_result_handling :
    (∀ (a : App) (idx : Nat) (pr : String × Int),
      a.proxy_state = some idx → a.proxies.get? idx = some pr →
      (∀ d : Int, d ≤ 0 →
        test_selected_delay a (.ok d) =
          { a with status := pr.1 ++ ": timeout" }) ∧
      (∀ e : String,
        test_selected_delay a (.error e) =
          { a with status := "Error testing delay: " ++ e }) ∧
      (∀ d : Int, 0 < d →
        test_selected_delay a (.ok d) =
          { a with status := pr.1 ++ ": " ++ toString d ++ "ms",
                   proxies := a.proxies.set idx (pr.1, d) } ∧
        (∀ j, j ≠ idx →
          (test_selected_delay a (.ok d)).proxies.get? j =
            a.proxies.get? j))) ∧
    (∀ resp : HttpResponse, resp.success = false →
      test_delay (.ok resp) = Except.ok (-1)) := by
  constructor
  · intro a idx pr h1 h2
    refine ⟨?_, ?_, ?_⟩
    · intro d hd
      simp only [test_selected_delay, h1, h2]
      rw [if_neg (by omega)]
    · intro e
      simp only [test_selected_delay, h1, h2]
    · intro d hd
      constructor
      · simp only [test_selected_delay, h1, h2]
        rw [if_pos hd]
      · intro j hj
        simp only [test_selected_delay, h1, h2]
        rw [if_pos hd]
        show (a.proxies.set idx (pr.1, d)).get? j = a.proxies.get? j
        rw [List.get?_eq_getElem?, List.get?_eq_getElem?,
          List.getElem?_set_ne (by omega)]
  · intro resp h
    simp only [test_delay, h]
    rfl

/-- C4, witness: the amended behavior at the concrete session: a `-1`
result on the member `p` gives the timeout status, and a non-success
response is turned into `-1`. -/
theorem test_delay_result_handling_witness :
    test_selected_delay exAppDelay (.ok (-1)) =
      { exAppDelay with status := "p: timeout" } ∧
    test_delay (.ok { success := false, body := .error "ignored" }) =
      Except.ok (-1) :=
  ⟨(test_delay_result_handling.1 exAppDelay 0 ("p", 100) rfl rfl).1 (-1)
      (by decide),
   test_delay_result_handling.2 { success := false, body := .error "ignored" }
      rfl⟩

-- ============================================================================
-- C5: the Select action
-- ============================================================================

/-- The single Selector group of the C5 scenario. -/
def exGroupG : Proxy :=
  { name := "g", proxy_type := "Selector", all := ["p"], now := some "p",
    history := [] }

/-- A `/proxies` response holding only that group. -/
def exMapG : ProxyMap := [("g", exGroupG)]

/-- A session in (Proxies, Members) with the group `g` and its member `p`
under the cursors. -/
def exAppSelect : App :=
  { baseApp with groups := ["g"], group_state := some 0,
                 proxies := [("p", (-1 : Int))], proxy_state := some 0,
                 current_group := some exGroupG, focus := 1 }

/-- C5, counterexample: the claim says a successful Select leaves the status
line confirming the switch; in this session the follow-up proxies refresh
succeeds and overwrites the confirmation with its own load summary, so the
final status is `Loaded 1 groups`. -/
theorem select_proxy_status_overwritten_cex :
    (select_proxy exAppSelect (.ok ()) (.ok exMapG)).status =
      "Loaded 1 groups" ∧
    "Loaded 1 groups" ≠ "Selected: g -> p" := by
  refine ⟨rfl, by decide⟩

/-- C5, amended: with a group snapshot held and a member under the Members
cursor, a failed Select sets the status to the error description and changes
nothing else; a successful Select first sets the confirmation status and
then runs the Proxies-tab refresh `refresh_proxies` (not a full
`refresh_data`) on that state, whose own status update replaces the
confirmation when it succeeds. The request names the cached group snapshot
`current_group` and the member under the cursor. -/
theorem select_proxy_behavior :
    ∀ (a : App) (g : Proxy) (idx : Nat) (pr : String × Int)
      (fetch : Except String ProxyMap),
    a.current_group = some g → a.proxy_state = some idx →
    a.proxies.get? idx = some pr →
    (∀ e : String,
      select_proxy a (.error e) fetch =
        { a with status := "Error selecting proxy: " ++ e }) ∧
    select_proxy a (.ok ()) fetch =
      refresh_proxies
        { a with status := "Selected: " ++ g.name ++ " -> " ++ pr.1 } fetch := by
  intro a g idx pr fetch h1 h2 h3
  constructor
  · intro e
    simp only [select_proxy, h1, h2, h3]
  · simp only [select_proxy, h1, h2, h3]

/-- C5, witness: the amended behavior at the concrete session: a failed
Select only reports the error. -/
theorem select_proxy_behavior_witness :
    select_proxy exAppSelect (.error "bad gateway") (.ok exMapG) =
      { exAppSelect with status := "Error selecting proxy: bad gateway" } :=
  (select_proxy_behavior exAppSelect exGroupG 0 ("p", -1) (.ok exMapG)
    rfl rfl rfl).1 "bad gateway"

-- ============================================================================
-- C3: Groups moves re-derive the Members list
-- ============================================================================

theorem upfg_apply (a : App) (m : ProxyMap) (idx : Nat) (gname : String)
    (g : Proxy) (h1 : a.group_state = some idx)
    (h2 : a.groups.get? idx = some gname)
    (h3 : lookupProxy m gname = some g) (h4 : a.proxy_state.isSome = true) :
    update_proxies_for_group a m =
      { a with current_group := some g, proxies := derive_members m g } := by
  obtain ⟨k, hk⟩ := Option.isSome_iff_exists.mp h4
  simp only [update_proxies_for_group, h1, h2, h3, hk, Option.isNone_some,
    Bool.and_false, Bool.false_eq_true, if_false]

/-- The stale group of the C3 scenario: the group first under the cursor. -/
def exGroupA : Proxy :=
  { name := "a", proxy_type := "Selector", all := ["old"], now := some "old",
    history := [] }

/-- The group one row below, with a different member list. -/
def exGroupB : Proxy :=
  { name := "b", proxy_type := "Selector", all := ["m1"], now := some "m1",
    history := [] }

/-- The member of group `b`, with one latency measurement of 50 ms. -/
def exProxyM1 : Proxy :=
  { name := "m1", proxy_type := "Shadowsocks", all := [], now := none,
    history := [{ delay := 50 }] }

/-- A `/proxies` response holding both groups and the member. -/
def exMapAB : ProxyMap := [("a", exGroupA), ("b", exGroupB), ("m1", exProxyM1)]

/-- A session in (Proxies, Groups) with the cursor on group `a` and the
member list of `a` displayed. -/
def exAppGroups : App :=
  { baseApp with groups := ["a", "b"], group_state := some 0,
                 proxies := [("old", (5 : Int))], proxy_state := some 0,
                 current_group := some exGroupA, focus := 0 }

/-- C3, counterexample: the claim says a stale member list is never left
displayed after the Groups cursor moves; when the re-fetch behind the move
fails, the cursor lands on group `b` while the member list and snapshot of
group `a` stay displayed. -/
theorem groups_move_stale_members_cex :
    (move_down exAppGroups (.error "io")).group_state = some 1 ∧
    exAppGroups.groups.get? 1 = some "b" ∧
    (move_down exAppGroups (.error "io")).proxies = [("old", (5 : Int))] ∧
    (move_down exAppGroups (.error "io")).current_group = some exGroupA ∧
    exGroupA.name = "a" ∧ ("a" : String) ≠ "b" := by
  refine ⟨rfl, rfl, rfl, rfl, rfl, by decide⟩

/-- C3, amended: an unclamped Groups move whose member re-fetch succeeds
and finds the group now under the cursor re-derives the displayed member
list exactly as the member list of that group and puts the Members cursor
on index 0 (re-fetch failure instead leaves the previous member list and
group snapshot displayed, as the counterexample shows). -/
theorem groups_move_rederives_members :
    ∀ (a : App) (m : ProxyMap) (gname : String) (g : Proxy),
    a.current_tab = Tab.Proxies → a.focus = 0 →
    (a.group_state.getD 0 < a.groups.length - 1 →
      a.groups.get? (a.group_state.getD 0 + 1) = some gname →
      lookupProxy m gname = some g →
      (move_down a (.ok m)).group_state = some (a.group_state.getD 0 + 1) ∧
      (move_down a (.ok m)).current_group = some g ∧
      (move_down a (.ok m)).proxies = derive_members m g ∧
      (move_down a (.ok m)).proxy_state = some 0) ∧
    (0 < a.group_state.getD 0 →
      a.groups.get? (a.group_state.getD 0 - 1) = some gname →
      lookupProxy m gname = some g →
      (move_up a (.ok m)).group_state = some (a.group_state.getD 0 - 1) ∧
      (move_up a (.ok m)).current_group = some g ∧
      (move_up a (.ok m)).proxies = derive_members m g ∧
      (move_up a (.ok m)).proxy_state = some 0) := by
  intro a m gname g htab hfoc
  obtain ⟨tab, gl, gs, pl, ps, cg, rl, rs, cl, cs, st, tr, md, sh, fo⟩ := a
  dsimp only at htab hfoc
  subst htab
  subst hfoc
  constructor
  · intro hlt hget hlook
    simp only [move_down, beq_self_eq_true, if_true]
    split
    · rw [upfg_apply
        ⟨Tab.Proxies, gl, some (gs.getD 0 + 1), pl, some 0, cg, rl, rs, cl,
         cs, st, tr, md, sh, 0⟩ m (gs.getD 0 + 1) gname g rfl hget hlook rfl]
      exact ⟨rfl, rfl, rfl, rfl⟩
    · rename_i hcon
      exact absurd hlt hcon
  · intro hgt hget hlook
    simp only [move_up, beq_self_eq_true, if_true]
    split
    · rw [upfg_apply
        ⟨Tab.Proxies, gl, some (gs.getD 0 - 1), pl, some 0, cg, rl, rs, cl,
         cs, st, tr, md, sh, 0⟩ m (gs.getD 0 - 1) gname g rfl hget hlook rfl]
      exact ⟨rfl, rfl, rfl, rfl⟩
    · rename_i hcon
      exact absurd hgt hcon

/-- C3, witness: the amended re-derivation at the concrete session: moving
down from group `a` onto group `b` with a successful re-fetch displays
exactly the member list of `b` with its recorded 50 ms latency, cursor on
index 0. -/
theorem groups_move_rederives_members_witness :
    (move_down exAppGroups (.ok exMapAB)).proxies = [("m1", (50 : Int))] ∧
    (move_down exAppGroups (.ok exMapAB)).proxy_state = some 0 := by
  have h := (groups_move_rederives_members exAppGroups exMapAB "b" exGroupB
    rfl rfl).1 (by decide) rfl rfl
  exact ⟨by rw [h.2.2.1]; rfl, h.2.2.2⟩

-- ============================================================================
-- C6: group listings
-- ============================================================================

/-- A `/proxies` response whose map iteration happens to yield `b` before
`a`. -/
def exMapBA : ProxyMap := [("b", exGroupB), ("a", exGroupA)]

/-- C6, counterexample: the claim says every group listing is sorted
lexicographically; the one-shot CLI `Groups` listing prints the filtered
map entries in iteration order without sorting, here `b` before `a`. -/
theorem cli_groups_unsorted_cex :
    (cli_groups exMapBA).map Prod.fst = ["b", "a"] ∧
    ¬ List.Pairwise (fun x y : String => x ≤ y) ["b", "a"] := by
  refine ⟨rfl, ?_⟩
  intro h
  rcases List.pairwise_cons.mp h with ⟨hb, _⟩
  refine absurd (hb "a" (by simp)) ?_
  rw [String.le_iff_toList_le]
  decide

/-- C6, amended: the interactive Proxies tab lists exactly the names of the
groups of kind Selector, URLTest or Fallback, sorted lexicographically; the
CLI `Groups` listing applies the same kind filter but prints in map
iteration order (unsorted, as the counterexample shows). -/
theorem group_listings_filter_sort :
    (∀ (a : App) (m : ProxyMap),
      List.Pairwise (fun x y : String => x ≤ y)
        (refresh_proxies a (.ok m)).groups) ∧
    (∀ (a : App) (m : ProxyMap) (n : String),
      n ∈ (refresh_proxies a (.ok m)).groups →
      ∃ p : Proxy, (n, p) ∈ m ∧ is_group_kind p = true) ∧
    (∀ (m : ProxyMap) (np : String × Proxy), np ∈ cli_groups m →
      np ∈ m ∧ is_group_kind np.2 = true) ∧
    (∀ (m : ProxyMap) (np : String × Proxy), np ∈ m →
      is_group_kind np.2 = true → np ∈ cli_groups m) := by
  refine ⟨?_, ?_, ?_, ?_⟩
  · intro a m
    rw [refresh_proxies_groups_ok]
    exact (pairwise_sortByLe strLe_total strLe_trans _).imp
      (fun hx => of_decide_eq_true hx)
  · intro a m n hn
    rw [refresh_proxies_groups_ok] at hn
    unfold group_names at hn
    rcases List.mem_map.mp (mem_sortByLe.mp hn) with ⟨p, hpmem, hpn⟩
    rcases List.mem_filter.mp hpmem with ⟨hpm, hpk⟩
    refine ⟨p.2, ?_, hpk⟩
    rw [← hpn]
    exact hpm
  · intro m np hnp
    exact ⟨(List.mem_filter.mp hnp).1, (List.mem_filter.mp hnp).2⟩
  · intro m np h1 h2
    exact List.mem_filter.mpr ⟨h1, h2⟩

/-- C6, witness: the amended listing facts at the concrete two-group map:
the group name `a` shown by the interactive list traces back to a map entry
of an allowed kind. -/
theorem group_listings_filter_sort_witness :
    ∃ p : Proxy, ("a", p) ∈ exMapBA ∧ is_group_kind p = true :=
  group_listings_filter_sort.2.1 baseApp exMapBA "a"
    (by rw [refresh_proxies_groups_ok]
        exact mem_sortByLe.mpr (by decide))

-- ============================================================================
-- C2: the selection-cursor invariant
-- ============================================================================

theorem cursorsValid_status (b : App) (s : String) :
    cursorsValid { b with status := s } = cursorsValid b := rfl

/-- A Connections-tab session with two connections and the cursor on the
second. -/
def exAppConns : App :=
  { baseApp with current_tab := Tab.Conns,
                 conns := [exConn "2024-01-01T00:00:02Z",
                           exConn "2024-01-01T00:00:01Z"],
                 conn_state := some 1 }

/-- C2, counterexample: the claim says every refresh leaves each cursor
unset or in range; a connections refresh that returns one connection while
the cursor sits on index 1 keeps the cursor at 1 on the one-element list,
out of range. -/
theorem cursor_refresh_shrink_cex :
    cursorsValid exAppConns = true ∧
    cursorsValid (refresh_conns exAppConns
      (.ok { downloadTotal := 0, uploadTotal := 0,
             connections := [exConn "2024-01-01T00:00:01Z"] })) = false := by
  exact ⟨rfl, rfl⟩

/-- C2, amended: starting from a state whose four cursors are unset or in
range, `move_up` and `move_down` preserve this (on an empty list the cursor
stays unset); a Groups move keeps the group, rule and connection cursors
valid and pins the Members cursor to index 0, valid whenever the resulting
member list is non-empty; a refresh whose affected cursors are unset
re-establishes the invariant (initializing them to 0 exactly on a non-empty
list), and a failed refresh preserves it; but a refresh does not re-clamp a
cursor that is already set, so a list that shrinks below its cursor leaves
the cursor out of range, as the counterexample shows. -/
theorem cursor_invariant_preservation :
    ∀ (a : App) (f : Except String ProxyMap),
    cursorsValid a = true →
    ((a.current_tab = Tab.Rules ∨ a.current_tab = Tab.Conns ∨
        (a.current_tab = Tab.Proxies ∧ a.focus ≠ 0)) →
      cursorsValid (move_down a f) = true ∧
      cursorsValid (move_up a f) = true) ∧
    (a.current_tab = Tab.Proxies → a.focus = 0 →
      (selValid (move_down a f).group_state (move_down a f).groups.length
          = true ∧
        selValid (move_down a f).rule_state (move_down a f).rules.length
          = true ∧
        selValid (move_down a f).conn_state (move_down a f).conns.length
          = true ∧
        ((move_down a f).proxies ≠ [] →
          selValid (move_down a f).proxy_state (move_down a f).proxies.length
            = true)) ∧
      (selValid (move_up a f).group_state (move_up a f).groups.length
          = true ∧
        selValid (move_up a f).rule_state (move_up a f).rules.length = true ∧
        selValid (move_up a f).conn_state (move_up a f).conns.length = true ∧
        ((move_up a f).proxies ≠ [] →
          selValid (move_up a f).proxy_state (move_up a f).proxies.length
            = true))) ∧
    (∀ newRules : List Rule, a.rule_state = none →
      cursorsValid (refresh_rules a (.ok newRules)) = true) ∧
    (∀ cr : ConnectionsResponse, a.conn_state = none →
      cursorsValid (refresh_conns a (.ok cr)) = true) ∧
    (∀ m : ProxyMap, a.group_state = none → a.proxy_state = none →
      cursorsValid (refresh_proxies a (.ok m)) = true) ∧
    (∀ e : String,
      cursorsValid (refresh_proxies a (.error e)) = true ∧
      cursorsValid (refresh_rules a (.error e)) = true ∧
      cursorsValid (refresh_conns a (.error e)) = true) := by
  intro a f hv
  obtain ⟨tab, gl, gs, pl, ps, cg, rl, rsel, cl, csel, st, tr, md, sh, fo⟩ := a
  have hv0 := hv
  simp only [cursorsValid, Bool.and_eq_true] at hv
  obtain ⟨⟨⟨hg, hp⟩, hr⟩, hc⟩ := hv
  refine ⟨?_, ?_, ?_, ?_, ?_, ?_⟩
  · intro hcase
    rcases hcase with htab | htab | ⟨htab, hfoc⟩
    · have ht : tab = Tab.Rules := htab
      subst ht
      constructor
      · simp only [move_down]
        split
        · rename_i hlt
          simp only [cursorsValid, Bool.and_eq_true]
          exact ⟨⟨⟨hg, hp⟩, selValid_step_down hr hlt⟩, hc⟩
        · exact hv0
      · simp only [move_up]
        split
        · rename_i hgt
          simp only [cursorsValid, Bool.and_eq_true]
          exact ⟨⟨⟨hg, hp⟩, selValid_step_up hr hgt⟩, hc⟩
        · exact hv0
    · have ht : tab = Tab.Conns := htab
      subst ht
      constructor
      · simp only [move_down]
        split
        · rename_i hlt
          simp only [cursorsValid, Bool.and_eq_true]
          exact ⟨⟨⟨hg, hp⟩, hr⟩, selValid_step_down hc hlt⟩
        · exact hv0
      · simp only [move_up]
        split
        · rename_i hgt
          simp only [cursorsValid, Bool.and_eq_true]
          exact ⟨⟨⟨hg, hp⟩, hr⟩, selValid_step_up hc hgt⟩
        · exact hv0
    · have ht : tab = Tab.Proxies := htab
      subst ht
      have hf : fo ≠ 0 := hfoc
      constructor
      · simp only [move_down]
        split
        · rename_i h0
          exact absurd (by simpa using h0) hf
        · split
          · rename_i hlt
            simp only [cursorsValid, Bool.and_eq_true]
            exact ⟨⟨⟨hg, selValid_step_down hp hlt⟩, hr⟩, hc⟩
          · exact hv0
      · simp only [move_up]
        split
        · rename_i h0
          exact absurd (by simpa using h0) hf
        · split
          · rename_i hgt
            simp only [cursorsValid, Bool.and_eq_true]
            exact ⟨⟨⟨hg, selValid_step_up hp hgt⟩, hr⟩, hc⟩
          · exact hv0
  · intro htab hfoc
    have ht : tab = Tab.Proxies := htab
    subst ht
    have hf : fo = 0 := hfoc
    subst hf
    constructor
    · simp only [move_down]
      split
      · split
        · rename_i hlt
          cases f with
          | error e =>
            refine ⟨selValid_step_down hg hlt, hr, hc, ?_⟩
            intro hne
            rw [selValid_some]
            exact List.length_pos.mpr hne
          | ok m =>
            refine ⟨?_, ?_, ?_, ?_⟩
            · rw [upfg_group_state, upfg_groups]
              exact selValid_step_down hg hlt
            · rw [upfg_rule_state, upfg_rules]
              exact hr
            · rw [upfg_conn_state, upfg_conns]
              exact hc
            · intro hne
              rw [upfg_proxy_state_of_isSome
                  ⟨Tab.Proxies, gl, some (gs.getD 0 + 1), pl, some 0, cg, rl,
                   rsel, cl, csel, st, tr, md, sh, 0⟩ m rfl, selValid_some]
              exact List.length_pos.mpr hne
        · exact ⟨hg, hr, hc, fun _ => hp⟩
      · rename_i h0
        exact absurd rfl h0
    · simp only [move_up]
      split
      · split
        · rename_i hgt
          cases f with
          | error e =>
            refine ⟨selValid_step_up hg hgt, hr, hc, ?_⟩
            intro hne
            rw [selValid_some]
            exact List.length_pos.mpr hne
          | ok m =>
            refine ⟨?_, ?_, ?_, ?_⟩
            · rw [upfg_group_state, upfg_groups]
              exact selValid_step_up hg hgt
            · rw [upfg_rule_state, upfg_rules]
              exact hr
            · rw [upfg_conn_state, upfg_conns]
              exact hc
            · intro hne
              rw [upfg_proxy_state_of_isSome
                  ⟨Tab.Proxies, gl, some (gs.getD 0 - 1), pl, some 0, cg, rl,
                   rsel, cl, csel, st, tr, md, sh, 0⟩ m rfl, selValid_some]
              exact List.length_pos.mpr hne
        · exact ⟨hg, hr, hc, fun _ => hp⟩
      · rename_i h0
        exact absurd rfl h0
  · intro newRules hnone
    have h2 : rsel = none := hnone
    subst h2
    simp only [refresh_rules]
    split
    · rename_i hcond
      have hne : newRules ≠ [] := by
        intro h
        rw [h] at hcond
        simp at hcond
      simp only [cursorsValid, Bool.and_eq_true]
      exact ⟨⟨⟨hg, hp⟩, by rw [selValid_some]; exact List.length_pos.mpr hne⟩,
        hc⟩
    · simp only [cursorsValid, Bool.and_eq_true]
      exact ⟨⟨⟨hg, hp⟩, rfl⟩, hc⟩
  · intro cr hnone
    have h2 : csel = none := hnone
    subst h2
    simp only [refresh_conns]
    split
    · rename_i hcond
      have hne : sortByLe connLe cr.connections ≠ [] := by
        intro h
        rw [h] at hcond
        simp at hcond
      simp only [cursorsValid, Bool.and_eq_true]
      exact ⟨⟨⟨hg, hp⟩, hr⟩,
        by rw [selValid_some]; exact List.length_pos.mpr hne⟩
    · simp only [cursorsValid, Bool.and_eq_true]
      exact ⟨⟨⟨hg, hp⟩, hr⟩, rfl⟩
  · intro m hgs hps
    have h2 : gs = none := hgs
    subst h2
    have h3 : ps = none := hps
    subst h3
    simp only [refresh_proxies]
    rw [cursorsValid_status]
    split
    · rename_i hcond
      apply upfg_cursorsValid
      · have hne : group_names m ≠ [] := by
          intro h
          rw [h] at hcond
          simp at hcond
        simp only [cursorsValid, Bool.and_eq_true]
        exact ⟨⟨⟨by rw [selValid_some]; exact List.length_pos.mpr hne, hp⟩,
          hr⟩, hc⟩
      · rfl
    · apply upfg_cursorsValid
      · simp only [cursorsValid, Bool.and_eq_true]
        exact ⟨⟨⟨rfl, hp⟩, hr⟩, hc⟩
      · rfl
  · intro e
    exact ⟨hv0, hv0, hv0⟩

/-- C2, witness: in the concrete Connections session, a movement keeps all
cursors valid. -/
theorem cursor_invariant_preservation_witness :
    cursorsValid (move_down exAppConns (.error "x")) = true :=
  ((cursor_invariant_preservation exAppConns (.error "x") rfl).1
    (Or.inr (Or.inl rfl))).1
